import Mathlib

/-!
The service of `services/ethereum.js` in fabric-ethereum.

A shallow embedding of the `Ethereum` service class: its chain state, the
`tip` and `height` setters, the tracked request `_executeRPCRequest`, the
passthrough `_makeRPCRequest`, the synchronisation routines, the heartbeat
`tick` and the `start` and `stop` lifecycle calls.

Conventions of the embedding.

* A JavaScript value is a `JSValue`.  Numbers are integers; fractional
  numbers and NaN are outside the model.
* `this.emit(name, payload)` appends a `Notification` to the `emitted` log of
  the service; listeners are not modelled.
* A promise is described by the `Settlement` it reaches.
* The remote node is a `Transport`: for a method and its parameters it says
  how `rpc.request(method, params, callback)` behaves.  An answer reaches the
  callback after `request` has returned, as with an HTTP client.
* `Date.now()` and `new Date()` readings are arguments of the functions that
  take them.
-/

set_option autoImplicit false

namespace FabricEthereum

/-! ## JavaScript values -/

/-- A JavaScript value: the primitives and plain objects (own properties in
insertion order). -/
inductive JSValue where
  | undefined
  | null
  | bool (b : Bool)
  | number (n : Int)
  | string (s : String)
  | object (props : List (String × JSValue))

namespace JSValue

/-- ToBoolean: the test behind `if (v)`, `!v` and `v ? a : b`. -/
def truthy : JSValue → Bool
  | undefined => false
  | null => false
  | bool b => b
  | number n => n != 0
  | string s => s != ""
  | object _ => true

/-- The exception of the engine for a property read on `undefined` or `null`,
or for a call of something that is not a function. -/
def typeError (message : String) : JSValue :=
  object [("name", string "TypeError"), ("message", string message)]

/-- Property read `v.key` for a key that names no built-in property (the
service reads `result` and `error`): throws on `undefined` and `null`, is
`undefined` on a primitive and on an object that lacks the key. -/
def get (v : JSValue) (key : String) : Except JSValue JSValue :=
  match v with
  | undefined => .error (typeError "Cannot read properties of undefined")
  | null => .error (typeError "Cannot read properties of null")
  | object props => .ok ((props.lookup key).getD undefined)
  | _ => .ok undefined

/-- The call `v.toString()`: throws on `undefined` and `null`. -/
def toStringCall : JSValue → Except JSValue String
  | undefined => .error (typeError "Cannot read properties of undefined")
  | null => .error (typeError "Cannot read properties of null")
  | bool b => .ok (if b then "true" else "false")
  | number n => .ok (toString n)
  | string s => .ok s
  | object _ => .ok "[object Object]"

end JSValue

/-! ## Data model -/

/-- One entry of `_state.accounts`: the object literal with a `balance`. -/
structure Account where
  balance : JSValue

/-- The object `this._state` built by the constructor.  `tip` is `null` or a
block hash, `height` is `null` or the text written by `_checkRPCBlockNumber`;
`accounts` maps an address to its entry. -/
structure ChainState where
  status : String
  stack : List JSValue
  accounts : List (String × Account)
  tip : Option String
  height : Option String

/-- What `this.emit` hands to the listeners of the service. -/
inductive Notification where
  | block (tip : Option String)
  | error (err : JSValue)
  | log (message : String)
  | ready
  | beat (clock : Int) (created : String) (state : ChainState)

/-- How `rpc.request(method, params, callback)` behaves for one call. -/
inductive Dispatch where
  | throws (exception : JSValue)
  | answers (err : JSValue) (response : JSValue)
  | silent

/-- The bound client stored in `this.rpc`. -/
abbrev Transport := String → List JSValue → Dispatch

/-- The merged settings of the constructor, as far as the service reads
them. -/
structure Settings where
  name : String
  mode : String
  network : String
  http : Bool
  stack : List JSValue
  servers : List String
  interval : Nat
  targets : List String

/-- The defaults of the constructor. -/
def Settings.defaults : Settings :=
  { name := "@services/ethereum", mode := "rpc", network := "main", http := false,
    stack := [], servers := ["http://127.0.0.1:8545"], interval := 12500, targets := [] }

/-- The service instance together with the part of the host it acts on: the
interval timers that are armed (`timers`, with `nextTimer` the next handle
`setInterval` gives out) and the notifications emitted so far. -/
structure Service where
  settings : Settings
  rpc : Option Transport
  _state : ChainState
  status : String
  clock : Int
  _beat : Option Nat
  timers : List Nat
  nextTimer : Nat
  emitted : List Notification

namespace Service

/-- The call `this.emit(...)`. -/
def emit (s : Service) (n : Notification) : Service :=
  { s with emitted := s.emitted ++ [n] }

end Service

namespace Ethereum

/-- Modelled from the spec: the tick counter `clock` is initialised by the
base class `Service`, which is not in the source; it starts at 0. -/
def initialClock : Int := 0

/-- Modelled from the spec: the `status` property is initialised by the base
class `Service`, which is not in the source; a service starts STOPPED. -/
def initialStatus : String := "STOPPED"

/-- The constructor of `Ethereum`: `rpc = null` and the initial `_state`, on
top of what the base class sets up; no timer is armed. -/
def constructor (settings : Settings) : Service :=
  { settings := settings
    rpc := none
    _state := { status := "STOPPED", stack := settings.stack, accounts := [],
                tip := none, height := none }
    status := initialStatus
    clock := initialClock
    _beat := none
    timers := []
    nextTimer := 0
    emitted := [] }

/-- The setter `set tip (value)`. -/
def set_tip (s : Service) (value : Option String) : Service :=
  if s._state.tip ≠ value then
    let s1 := s.emit (.block value)
    { s1 with _state := { s1._state with tip := value } }
  else s

/-- The setter `set height (value)`. -/
def set_height (s : Service) (value : Option String) : Service :=
  { s with _state := { s._state with height := value } }

/-- The getter `get tip ()`. -/
def tip (s : Service) : Option String := s._state.tip

/-- The getter `get height ()`. -/
def height (s : Service) : Option String := s._state.height

end Ethereum

/-! ## Tracked requests -/

/-- The `Actor` wrapped around one outbound call.  Its `id` is computed by the
`Actor` class and is not modelled. -/
structure RequestRecord where
  type : String
  method : String
  params : List JSValue
  status : String

/-- What a tracked request resolves with. -/
structure TimedResult where
  request : RequestRecord
  duration : Int
  result : JSValue

/-- The reasons a promise of the service is rejected with.  The first two are
the `Error` objects built from a template literal around `err` and
`exception`; the text of the message is not computed. -/
inductive Rejection where
  | couldNotCall (err : JSValue)
  | requestException (exception : JSValue)
  | rpcMissing
  | thrown (exception : JSValue)

/-- The fate of a promise.  `stalled` is a promise whose callback threw before
it called `resolve` or `reject`: it never settles and the exception escapes
into the transport.  `pending` is a promise whose transport never answers.
`beyond` marks a run that leaves the fragment of `JSON.parse` evaluated
here. -/
inductive Settlement (α : Type) where
  | resolved (value : α)
  | rejected (reason : Rejection)
  | pending
  | stalled (exception : JSValue)
  | beyond

/-- Forget the value of a settlement. -/
def Settlement.void {α : Type} : Settlement α → Settlement Unit
  | .resolved _ => .resolved ()
  | .rejected reason => .rejected reason
  | .pending => .pending
  | .stalled exception => .stalled exception
  | .beyond => .beyond

/-- The two readings of `Date.now()` around a call. -/
structure Clock where
  start : Int
  finish : Int

/-- A tracked call after it has run: the service, the request record in its
final state and the promise handed to the caller. -/
structure Tracked where
  service : Service
  request : RequestRecord
  settlement : Settlement TimedResult

namespace Ethereum

/-- The method `_executeRPCRequest (name, params = [])`. -/
def _executeRPCRequest (s : Service) (name : String) (params : List JSValue) (t : Clock) :
    Tracked :=
  let actor : RequestRecord :=
    { type := "GenericRPCRequest", method := name, params := params, status := "queued" }
  match s.rpc with
  | none =>
    ⟨s, actor, .rejected (.requestException (JSValue.typeError "Cannot read properties of null"))⟩
  | some rpc =>
    match rpc name params with
    | .throws exception => ⟨s, actor, .rejected (.requestException exception)⟩
    | .silent => ⟨s, actor, .pending⟩
    | .answers err response =>
      let duration := t.finish - t.start
      if err.truthy then
        let failed := { actor with status := "error" }
        ⟨s.emit (.error err), failed, .rejected (.couldNotCall err)⟩
      else
        let completed := { actor with status := "completed" }
        match response.get "result" with
        | .ok result =>
          ⟨s, completed, .resolved { request := completed, duration := duration, result := result }⟩
        | .error exception => ⟨s, completed, .stalled exception⟩

/-- The assignment `accounts[address] = entry`. -/
def setAccount : List (String × Account) → String → Account → List (String × Account)
  | [], address, entry => [(address, entry)]
  | (key, old) :: rest, address, entry =>
    if key = address then (key, entry) :: rest else (key, old) :: setAccount rest address entry

/-- The method `_getBalanceForAddress (address)`, with its `then` handler.  A
`TimedResult` is an object, so `!response` never holds. -/
def _getBalanceForAddress (s : Service) (address : String) (t : Clock) : Tracked :=
  let request := _executeRPCRequest s "eth_getBalance" [.string address] t
  match request.settlement with
  | .resolved response =>
    if !response.result.truthy then request
    else
      let service := request.service
      { request with
        service := { service with
          _state := { service._state with
            accounts := setAccount service._state.accounts address
              { balance := response.result } } } }
  | _ => request

/-- The method `_checkAllTargetBalances ()`.  The loop issues one lookup per
target and awaits none; each answer is taken to arrive, in the order of issue,
once the caller has run to its end. -/
def _checkAllTargetBalances (s : Service) (t : Clock) : Service :=
  s.settings.targets.foldl (fun acc address => (_getBalanceForAddress acc address t).service) s

end Ethereum

/-! ## The `Buffer` calls of `_checkRPCBlockNumber` -/

namespace Buffer

/-- The value of one hexadecimal digit. -/
def unhex (c : Char) : Option Nat :=
  if '0' ≤ c ∧ c ≤ '9' then some (c.toNat - '0'.toNat)
  else if 'a' ≤ c ∧ c ≤ 'f' then some (c.toNat - 'a'.toNat + 10)
  else if 'A' ≤ c ∧ c ≤ 'F' then some (c.toNat - 'A'.toNat + 10)
  else none

/-- Hex decoding as Node does it: two digits give one byte, and decoding stops
at the first pair that is not two hexadecimal digits or at a single last
character. -/
def hexDecode : List Char → List Nat
  | a :: b :: rest =>
    match unhex a, unhex b with
    | some hi, some lo => (16 * hi + lo) :: hexDecode rest
    | _, _ => []
  | _ => []

/-- The call `Buffer.from(text, 'hex')`: the bytes of the buffer. -/
def fromHex (text : String) : List Nat := hexDecode text.toList

/-- The call `buffer.toString(10)`.  The argument is the encoding: an empty
range gives the empty string before the encoding is looked up, and `10` names
no encoding. -/
def toString10 (bytes : List Nat) : Except JSValue String :=
  if bytes.length = 0 then .ok ""
  else .error (JSValue.typeError "Unknown encoding: 10")

end Buffer

/-! ## The part of `JSON.parse` that is evaluated -/

/-- The outcome of `JSON.parse`: a value, the SyntaxError it throws, or
`outside` for an argument this fragment leaves undecided. -/
inductive Parsed where
  | value (v : JSValue)
  | throws (exception : JSValue)
  | outside

namespace JSON

/-- The SyntaxError of `JSON.parse`. -/
def malformed : JSValue :=
  .object [("name", .string "SyntaxError"), ("message", .string "Unexpected token in JSON")]

/-- Whether a JSON text can begin with this character: white space, an opening
brace or bracket, a quote, a minus sign, a digit, or the first letter of
`true`, `false` or `null`. -/
def canBegin (c : Char) : Bool :=
  c = ' ' || c = '\t' || c = '\n' || c = '\r' || c = '\x7b' || c = '[' || c = '\x22' ||
  c = '-' || c.isDigit || c = 't' || c = 'f' || c = 'n'

/-- The call `JSON.parse` on a text: the three literal names are parsed, a text
that is empty or begins with a character no JSON text begins with is
rejected, every other text is left undecided. -/
def parseText (text : String) : Parsed :=
  if text = "null" then .value .null
  else if text = "true" then .value (.bool true)
  else if text = "false" then .value (.bool false)
  else
    match text.toList with
    | [] => .throws malformed
    | c :: _ => if canBegin c then .outside else .throws malformed

/-- The call `JSON.parse(v)`: the argument is converted to a string first.  An
integer prints as a numeral that parses back to itself. -/
def parse : JSValue → Parsed
  | .undefined => parseText "undefined"
  | .null => parseText "null"
  | .bool b => parseText (if b then "true" else "false")
  | .number n => .value (.number n)
  | .string text => parseText text
  | .object _ => parseText "[object Object]"

end JSON

namespace Ethereum

/-- The method `_checkRPCBlockNumber ()`, with its `then` handler.  When the
handler throws, the promise it belongs to is rejected and nobody awaits it:
the height keeps its value. -/
def _checkRPCBlockNumber (s : Service) (t : Clock) : Tracked :=
  let request := _executeRPCRequest s "eth_blockNumber" [] t
  match request.settlement with
  | .resolved response =>
    match response.result.toStringCall >>= fun text => Buffer.toString10 (Buffer.fromHex text) with
    | .ok decoded => { request with service := set_height request.service (some decoded) }
    | .error _ => request
  | _ => request

/-- The method `tick ()` up to its first `await`: the counter is incremented
and the height request is issued. -/
def tickBegin (s : Service) : Service :=
  { s with clock := s.clock + 1 }

/-- The method `tick ()` from its first `await` on: the height request is
answered, the balance lookups are issued and the beat is emitted; the answers
to the lookups arrive after the beat.  `now` is the timestamp the tick took
when it began. -/
def tickResume (s : Service) (now : String) (t : Clock) : Service × Settlement Unit :=
  let request := _checkRPCBlockNumber s t
  match request.settlement with
  | .resolved _ =>
    let service := request.service
    let beaten := service.emit (.beat service.clock now service._state)
    (_checkAllTargetBalances beaten t, .resolved ())
  | other => (request.service, other.void)

/-- The host call `clearInterval(handle)`; `undefined` clears nothing. -/
def clearInterval (timers : List Nat) : Option Nat → List Nat
  | none => timers
  | some handle => timers.filter (fun armed => armed != handle)

/-- The method `stop ()`. -/
def stop (s : Service) : Service :=
  let stopping := { s with status := "stopping" }
  let disarmed :=
    if stopping.settings.mode = "rpc" then
      { stopping with timers := clearInterval stopping.timers stopping._beat, _beat := none }
    else stopping
  { disarmed with status := "stopped" }

/-- The method `_makeRPCRequest (method, params = [])`. -/
def _makeRPCRequest (s : Service) (method : String) (params : List JSValue) :
    Settlement JSValue :=
  match s.rpc with
  | none => .rejected .rpcMissing
  | some rpc =>
    match rpc method params with
    | .throws exception => .rejected (.thrown exception)
    | .silent => .pending
    | .answers err response =>
      if err.truthy then
        match err.get "error" with
        | .error exception => .stalled exception
        | .ok inner =>
          if inner.truthy then
            match JSON.parse inner with
            | .throws exception => .stalled exception
            | .outside => .beyond
            | .value once =>
              match JSON.parse once with
              | .throws exception => .stalled exception
              | .outside => .beyond
              | .value twice =>
                .resolved (.object [("error", twice), ("response", response)])
          else .resolved (.object [("error", err), ("response", response)])
      else
        match response.get "result" with
        | .ok result => .resolved result
        | .error exception => .stalled exception

/-- The method `_getBlockByNumber (number)`. -/
def _getBlockByNumber (s : Service) (number : JSValue) : Settlement JSValue :=
  _makeRPCRequest s "eth_getBlockByNumber" [number]

/-- The method `_getChainHeight ()`. -/
def _getChainHeight (s : Service) : Settlement JSValue :=
  _makeRPCRequest s "eth_blockNumber" []

/-- The method `_syncWithRPC ()`: both values it awaits are dropped, the
service is returned as it was. -/
def _syncWithRPC (s : Service) : Service × Settlement Unit :=
  match _getChainHeight s with
  | .resolved height =>
    match _getBlockByNumber s height with
    | .resolved _ => (s, .resolved ())
    | other => (s, other.void)
  | other => (s, other.void)

end Ethereum

/-! ## The host calls of `start` -/

/-- The fields `start` reads of a parsed URL. -/
structure URL where
  protocol : String
  username : String
  password : String
  hostname : String
  port : String

/-- The `config` object handed to the client factory. -/
structure ClientConfig where
  username : String
  password : String
  host : String
  port : String

/-- The collaborators of `start`: the URL constructor, which throws on a text
it cannot parse, the two client factories of jayson, and the outcome of
`this.http.start()`. -/
structure Host where
  parseURL : String → Except JSValue URL
  http : ClientConfig → Transport
  https : ClientConfig → Transport
  httpStart : Except JSValue Unit

namespace Ethereum

/-- The `rpc` branch of `start ()`: every server is parsed, the first one gives
the client, the client is stored and the heartbeat is armed. -/
def connect (host : Host) (s : Service) : Except JSValue Service :=
  match s.settings.servers.mapM host.parseURL with
  | .error exception => .error exception
  | .ok providers =>
    match providers.head? with
    | none => .error (JSValue.typeError "Cannot read properties of undefined")
    | some provider =>
      let secure := provider.protocol == "https:"
      let config : ClientConfig :=
        { username := provider.username, password := provider.password,
          host := provider.hostname, port := provider.port }
      let client := if secure then host.https config else host.http config
      .ok { s with rpc := some client, _beat := some s.nextTimer,
                   timers := s.timers ++ [s.nextTimer], nextTimer := s.nextTimer + 1 }

/-- The method `start ()` from the HTTP server on, once the transport is
wired: the server is started when it is configured, the bootstrap sync runs,
the status becomes started, the service announces itself and the balance
lookups are issued.  The log listener of the HTTP server is not modelled. -/
def bootstrap (host : Host) (wired : Service) (t : Clock) : Service × Settlement Unit :=
  match (if wired.settings.http then host.httpStart else .ok ()) with
  | .error exception => (wired, .rejected (.thrown exception))
  | .ok () =>
    match _syncWithRPC wired with
    | (synced, .resolved _) =>
      let started := { synced with status := "started" }
      let announced := (started.emit (.log "Service started!")).emit .ready
      (_checkAllTargetBalances announced t, .resolved ())
    | (synced, other) => (synced, other)

/-- The method `start ()`.  The listener for the steps of the virtual machine
is not modelled. -/
def start (host : Host) (s : Service) (t : Clock) : Service × Settlement Unit :=
  let starting := { s with status := "starting" }
  match (if starting.settings.mode = "rpc" then connect host starting else .ok starting) with
  | .error exception => (starting, .rejected (.thrown exception))
  | .ok wired => bootstrap host wired t

end Ethereum

/-! ## Interleaving of the heartbeat with the lifecycle calls -/

/-- The service and the ticks that are suspended at their first `await`, each
with the timestamp it took when it began, oldest first. -/
structure Machine where
  service : Service
  suspended : List String

/-- What can happen to a running service: the application calls `start` or
`stop`, the host fires an interval timer, or the remote answer the oldest
suspended tick waits for arrives. -/
inductive Event where
  | start (host : Host) (t : Clock)
  | stop
  | fire (handle : Nat) (now : String)
  | answer (t : Clock)

namespace Machine

/-- One event.  A timer fires only while it is armed; its callback is
`tick`, which runs up to its first `await`. -/
def step (m : Machine) : Event → Machine
  | .start host t => { m with service := (Ethereum.start host m.service t).1 }
  | .stop => { m with service := Ethereum.stop m.service }
  | .fire handle now =>
    if handle ∈ m.service.timers then
      { service := Ethereum.tickBegin m.service, suspended := m.suspended ++ [now] }
    else m
  | .answer t =>
    match m.suspended with
    | [] => m
    | now :: rest => { service := (Ethereum.tickResume m.service now t).1, suspended := rest }

/-- A sequence of events, in order. -/
def run (m : Machine) (events : List Event) : Machine :=
  events.foldl step m

end Machine

/-- Whether an event comes from the host or the remote node, not from the
application. -/
def Event.isBackground : Event → Bool
  | .fire _ _ => true
  | .answer _ => true
  | _ => false

/-- A new service that is started once, lives through the events `between`
and is then stopped. -/
def lifecycle (host : Host) (settings : Settings) (t : Clock) (between : List Event) : Machine :=
  Machine.run { service := Ethereum.constructor settings, suspended := [] }
    (Event.start host t :: (between ++ [Event.stop]))

/-- The clock values of the heartbeat notifications of a log, in order. -/
def beatClocks : List Notification → List Int
  | [] => []
  | .beat clock _ _ :: rest => clock :: beatClocks rest
  | _ :: rest => beatClocks rest

/-- The block-changed notifications of a log, in order. -/
def blockNotifications : List Notification → List (Option String)
  | [] => []
  | .block v :: rest => v :: blockNotifications rest
  | _ :: rest => blockNotifications rest

/-- Two states of the service that agree on the wiring, the lifecycle fields,
the tip and the height, and on the heartbeat and block-changed notifications;
they may differ in the accounts and in the other notifications. -/
def Service.agrees (a b : Service) : Prop :=
  a.settings = b.settings ∧ a.rpc = b.rpc ∧ a.status = b.status ∧ a.clock = b.clock ∧
  a._beat = b._beat ∧ a.timers = b.timers ∧ a.nextTimer = b.nextTimer ∧
  a._state.tip = b._state.tip ∧ a._state.height = b._state.height ∧
  beatClocks a.emitted = beatClocks b.emitted ∧
  blockNotifications a.emitted = blockNotifications b.emitted

/-! ## A remote node and a host for the examples -/

/-- A node at height 16 whose head block has the hash `0xabc` and on which
every account holds 100. -/
def sampleNode : Transport := fun method _ =>
  if method = "eth_blockNumber" then
    .answers .null (.object [("result", .string "0x10")])
  else if method = "eth_getBlockByNumber" then
    .answers .null (.object [("result", .object [("hash", .string "0xabc")])])
  else if method = "eth_getBalance" then
    .answers .null (.object [("result", .string "0x64")])
  else .answers (.string "Method not found") .undefined

/-- A host on which every URL parses and every client talks to
`sampleNode`. -/
def sampleHost : Host :=
  { parseURL := fun _ =>
      .ok { protocol := "http:", username := "", password := "",
            hostname := "127.0.0.1", port := "8545" }
    http := fun _ => sampleNode
    https := fun _ => sampleNode
    httpStart := .ok () }

/-- A new service whose `rpc` is a client of `sampleNode`. -/
def sampleService : Service :=
  { Ethereum.constructor Settings.defaults with rpc := some sampleNode }

theorem blockNotifications_append (xs ys : List Notification) :
    blockNotifications (xs ++ ys) = blockNotifications xs ++ blockNotifications ys := by
  induction xs with
  | nil => rfl
  | cons x xs ih => cases x <;> simp [blockNotifications, ih]

theorem beatClocks_append (xs ys : List Notification) :
    beatClocks (xs ++ ys) = beatClocks xs ++ beatClocks ys := by
  induction xs with
  | nil => rfl
  | cons x xs ih => cases x <;> simp [beatClocks, ih]

open Ethereum

theorem Service.agrees_refl (a : Service) : a.agrees a := by
  simp [Service.agrees]

theorem Service.agrees_trans {a b c : Service} (hab : a.agrees b) (hbc : b.agrees c) :
    a.agrees c := by
  obtain ⟨h1, h2, h3, h4, h5, h6, h7, h8, h9, h10, h11⟩ := hab
  obtain ⟨k1, k2, k3, k4, k5, k6, k7, k8, k9, k10, k11⟩ := hbc
  exact ⟨h1.trans k1, h2.trans k2, h3.trans k3, h4.trans k4, h5.trans k5, h6.trans k6,
    h7.trans k7, h8.trans k8, h9.trans k9, h10.trans k10, h11.trans k11⟩

theorem Service.agrees_emit_error (s : Service) (err : JSValue) :
    (s.emit (Notification.error err)).agrees s := by
  simp [Service.agrees, Service.emit, beatClocks_append, blockNotifications_append,
    beatClocks, blockNotifications]

theorem executeRPCRequest_service_cases (s : Service) (name : String) (params : List JSValue)
    (t : Clock) :
    (_executeRPCRequest s name params t).service = s ∨
    ∃ err, (_executeRPCRequest s name params t).service = s.emit (Notification.error err) := by
  cases hrpc : s.rpc with
  | none => simp [_executeRPCRequest, hrpc]
  | some rpc =>
    cases hanswer : rpc name params with
    | throws exception => simp [_executeRPCRequest, hrpc, hanswer]
    | silent => simp [_executeRPCRequest, hrpc, hanswer]
    | answers err response =>
      cases herr : err.truthy with
      | true => right; exact ⟨err, by simp [_executeRPCRequest, hrpc, hanswer, herr]⟩
      | false =>
        left
        cases hres : response.get "result" <;>
          simp [_executeRPCRequest, hrpc, hanswer, herr, hres]

theorem executeRPCRequest_agrees (s : Service) (name : String) (params : List JSValue)
    (t : Clock) : (_executeRPCRequest s name params t).service.agrees s := by
  rcases executeRPCRequest_service_cases s name params t with h | ⟨err, h⟩
  · rw [h]; exact Service.agrees_refl s
  · rw [h]; exact Service.agrees_emit_error s err

theorem getBalanceForAddress_agrees (s : Service) (address : String) (t : Clock) :
    (_getBalanceForAddress s address t).service.agrees s := by
  have h := executeRPCRequest_agrees s "eth_getBalance" [JSValue.string address] t
  unfold _getBalanceForAddress
  simp only []
  split
  · split
    · exact h
    · simpa [Service.agrees] using h
  · exact h

theorem checkAllTargetBalances_fold_agrees (targets : List String) (s : Service) (t : Clock) :
    (targets.foldl (fun acc address => (_getBalanceForAddress acc address t).service) s).agrees
      s := by
  induction targets generalizing s with
  | nil => exact Service.agrees_refl s
  | cons address rest ih =>
    simp only [List.foldl_cons]
    exact Service.agrees_trans (ih _) (getBalanceForAddress_agrees s address t)

theorem checkAllTargetBalances_agrees (s : Service) (t : Clock) :
    (_checkAllTargetBalances s t).agrees s :=
  checkAllTargetBalances_fold_agrees s.settings.targets s t

/-! ## The tip setter -/

/-- C1: assigning a tip that differs from the current one emits exactly one
block-changed notification, which carries the new value, and leaves the tip at
that value; assigning the current tip emits nothing and leaves the service as
it was; so assigning a new value twice in succession emits one notification,
not two. -/
theorem set_tip_notifies_once (s : Service) (v : Option String) :
    (v ≠ s._state.tip →
      (set_tip s v).emitted = s.emitted ++ [Notification.block v] ∧
      (set_tip s v)._state.tip = v) ∧
    (v = s._state.tip → set_tip s v = s) ∧
    (v ≠ s._state.tip →
      (set_tip (set_tip s v) v).emitted = s.emitted ++ [Notification.block v]) := by
  refine ⟨fun h => ?_, fun h => ?_, fun h => ?_⟩
  · have h1 : s._state.tip ≠ v := fun e => h e.symm
    simp [set_tip, h1, Service.emit]
  · subst h
    simp [set_tip]
  · have h1 : s._state.tip ≠ v := fun e => h e.symm
    simp [set_tip, h1, Service.emit]

theorem set_tip_notifies_once_witness :
    some "0xabc" ≠ (constructor Settings.defaults)._state.tip ∧
    (set_tip (set_tip (constructor Settings.defaults) (some "0xabc")) (some "0xabc")).emitted
      = (constructor Settings.defaults).emitted ++ [Notification.block (some "0xabc")] :=
  ⟨by decide,
   (set_tip_notifies_once (constructor Settings.defaults) (some "0xabc")).2.2 (by decide)⟩

/-- C2: on a service whose tip is null, as right after construction, assigning
null and then a value that is not null emits exactly one block-changed
notification in total, and it carries that value. -/
theorem set_tip_null_then_value (s : Service) (v : String) (h : s._state.tip = none) :
    (set_tip (set_tip s none) (some v)).emitted = s.emitted ++ [Notification.block (some v)] ∧
    (set_tip s none).emitted = s.emitted := by
  simp [set_tip, h, Service.emit]

theorem set_tip_null_then_value_witness :
    (constructor Settings.defaults)._state.tip = none ∧
    (set_tip (set_tip (constructor Settings.defaults) none) (some "0xabc")).emitted
      = (constructor Settings.defaults).emitted ++ [Notification.block (some "0xabc")] :=
  ⟨rfl, (set_tip_null_then_value (constructor Settings.defaults) "0xabc" rfl).1⟩

/-! ## The tracked request -/

/-- C7: on a service whose transport is not configured (`rpc` is null, as after
construction) the tracked request rejects with the wrapped exception error
for every method and parameter list; the request record stays queued and never
reaches completed, and nothing is emitted. -/
theorem executeRPCRequest_without_transport (s : Service) (name : String)
    (params : List JSValue) (t : Clock) (h : s.rpc = none) :
    (∃ exception, (_executeRPCRequest s name params t).settlement
        = Settlement.rejected (Rejection.requestException exception)) ∧
    (_executeRPCRequest s name params t).request.status = "queued" ∧
    (_executeRPCRequest s name params t).request.status ≠ "completed" ∧
    (_executeRPCRequest s name params t).service = s := by
  simp [_executeRPCRequest, h]

theorem executeRPCRequest_without_transport_witness :
    (constructor Settings.defaults).rpc = none ∧
    (_executeRPCRequest (constructor Settings.defaults) "eth_blockNumber" [] ⟨0, 5⟩).request.status
      = "queued" :=
  ⟨rfl, (executeRPCRequest_without_transport (constructor Settings.defaults)
    "eth_blockNumber" [] ⟨0, 5⟩ rfl).2.1⟩

theorem fromHex_prefixed (digits : String) : Buffer.fromHex ("0x" ++ digits) = [] := by
  have h : ("0x" ++ digits).toList = '0' :: 'x' :: digits.toList := by
    simp [String.toList]
  have hx : Buffer.unhex 'x' = none := by decide
  simp [Buffer.fromHex, h, Buffer.hexDecode, hx]

/-- C4, the code evaluated: for every successful answer to `eth_blockNumber`
whose result is a text that starts with `0x`, `_checkRPCBlockNumber` sets the
height to the empty string, whatever number the digits encode: the hex
decoding of the buffer stops at the `x` and the empty buffer prints as the
empty string.  For `0x10` the height is the empty string and not `16`. -/
theorem checkRPCBlockNumber_prefixed_height (s : Service) (rpc : Transport) (t : Clock)
    (err response : JSValue) (digits : String) (hrpc : s.rpc = some rpc)
    (hanswer : rpc "eth_blockNumber" [] = Dispatch.answers err response)
    (herr : err.truthy = false)
    (hresult : response.get "result" = Except.ok (JSValue.string ("0x" ++ digits))) :
    (_checkRPCBlockNumber s t).service._state.height = some "" ∧
    (_checkRPCBlockNumber s t).service._state.height ≠ some "16" := by
  have h : (_checkRPCBlockNumber s t).service._state.height = some "" := by
    simp [_checkRPCBlockNumber, _executeRPCRequest, hrpc, hanswer, herr, hresult,
      JSValue.toStringCall, fromHex_prefixed, Buffer.toString10, set_height, bind, Except.bind]
  refine ⟨h, ?_⟩
  rw [h]
  decide

theorem checkRPCBlockNumber_prefixed_height_witness :
    sampleService.rpc = some sampleNode ∧
    sampleNode "eth_blockNumber" []
      = Dispatch.answers JSValue.null (JSValue.object [("result", JSValue.string "0x10")]) ∧
    (_checkRPCBlockNumber sampleService ⟨0, 5⟩).service._state.height = some "" :=
  ⟨rfl, rfl,
   (checkRPCBlockNumber_prefixed_height sampleService sampleNode ⟨0, 5⟩ JSValue.null
      (JSValue.object [("result", JSValue.string "0x10")]) "10" rfl rfl rfl rfl).1⟩

/-! ## The heartbeat -/

theorem checkRPCBlockNumber_frame (s : Service) (t : Clock) :
    (_checkRPCBlockNumber s t).service.timers = s.timers ∧
    (_checkRPCBlockNumber s t).service._beat = s._beat ∧
    (_checkRPCBlockNumber s t).service.settings = s.settings ∧
    (_checkRPCBlockNumber s t).service.status = s.status ∧
    (_checkRPCBlockNumber s t).service.clock = s.clock ∧
    (_checkRPCBlockNumber s t).service._state.tip = s._state.tip ∧
    beatClocks (_checkRPCBlockNumber s t).service.emitted = beatClocks s.emitted := by
  obtain ⟨h1, -, h3, h4, h5, h6, -, h8, -, h10, -⟩ :=
    executeRPCRequest_agrees s "eth_blockNumber" [] t
  unfold _checkRPCBlockNumber
  simp only []
  split
  · split
    · simp only [set_height]
      exact ⟨h6, h5, h1, h3, h4, h8, h10⟩
    · exact ⟨h6, h5, h1, h3, h4, h8, h10⟩
  · exact ⟨h6, h5, h1, h3, h4, h8, h10⟩

theorem tickResume_frame (s : Service) (now : String) (t : Clock) :
    (tickResume s now t).1.timers = s.timers ∧
    (tickResume s now t).1._beat = s._beat ∧
    (tickResume s now t).1.settings = s.settings ∧
    (tickResume s now t).1.status = s.status ∧
    (tickResume s now t).1._state.tip = s._state.tip ∧
    (beatClocks (tickResume s now t).1.emitted = beatClocks s.emitted ∨
     beatClocks (tickResume s now t).1.emitted = beatClocks s.emitted ++ [s.clock]) := by
  obtain ⟨h1, h2, h3, h4, h5, h6, h7⟩ := checkRPCBlockNumber_frame s t
  unfold tickResume
  simp only []
  split
  · obtain ⟨k1, -, k3, -, k5, k6, -, k8, -, k10, -⟩ := checkAllTargetBalances_agrees
      ((_checkRPCBlockNumber s t).service.emit
        (Notification.beat (_checkRPCBlockNumber s t).service.clock now
          (_checkRPCBlockNumber s t).service._state)) t
    refine ⟨?_, ?_, ?_, ?_, ?_, Or.inr ?_⟩
    · rw [k6]; exact h1
    · rw [k5]; exact h2
    · rw [k1]; exact h3
    · rw [k3]; exact h4
    · rw [k8]; exact h6
    · rw [k10]
      simp [Service.emit, beatClocks_append, beatClocks, h5, h7]
  · exact ⟨h1, h2, h3, h4, h6, Or.inl h7⟩

theorem syncWithRPC_service (s : Service) : (_syncWithRPC s).1 = s := by
  unfold _syncWithRPC
  split
  · split <;> rfl
  · rfl

theorem connect_ok (host : Host) (s wired : Service) (h : connect host s = Except.ok wired) :
    wired.settings = s.settings ∧ wired.status = s.status ∧ wired._state = s._state ∧
    wired.clock = s.clock ∧ wired.emitted = s.emitted ∧
    wired.timers = s.timers ++ [s.nextTimer] ∧ wired._beat = some s.nextTimer := by
  unfold connect at h
  split at h
  · exact absurd h (by simp)
  · split at h
    · exact absurd h (by simp)
    · simp only [Except.ok.injEq] at h
      subst h
      simp

theorem bootstrap_frame (host : Host) (wired : Service) (t : Clock) :
    (bootstrap host wired t).1.settings = wired.settings ∧
    (bootstrap host wired t).1._state.tip = wired._state.tip ∧
    (bootstrap host wired t).1._state.height = wired._state.height ∧
    (bootstrap host wired t).1.clock = wired.clock ∧
    beatClocks (bootstrap host wired t).1.emitted = beatClocks wired.emitted ∧
    (bootstrap host wired t).1.timers = wired.timers ∧
    (bootstrap host wired t).1._beat = wired._beat ∧
    (bootstrap host wired t).1.rpc = wired.rpc := by
  have hsync := syncWithRPC_service wired
  unfold bootstrap
  split
  · simp
  · split
    · rename_i synced _ heq
      have hs : synced = wired := by
        have := congrArg Prod.fst heq
        simpa [hsync] using this.symm
      subst hs
      obtain ⟨k1, k2, -, k4, k5, k6, -, k8, k9, k10, -⟩ := checkAllTargetBalances_agrees
        (({ synced with status := "started" }.emit
          (Notification.log "Service started!")).emit Notification.ready) t
      refine ⟨?_, ?_, ?_, ?_, ?_, ?_, ?_, ?_⟩
      · rw [k1]; simp [Service.emit]
      · rw [k8]; simp [Service.emit]
      · rw [k9]; simp [Service.emit]
      · rw [k4]; simp [Service.emit]
      · rw [k10]
        simp [Service.emit, beatClocks_append, beatClocks]
      · rw [k6]; simp [Service.emit]
      · rw [k5]; simp [Service.emit]
      · rw [k2]; simp [Service.emit]
    · rename_i synced other _ heq
      have hs : synced = wired := by
        have := congrArg Prod.fst heq
        simpa [hsync] using this.symm
      subst hs
      simp

theorem start_frame (host : Host) (s : Service) (t : Clock) :
    (start host s t).1.settings = s.settings ∧
    (start host s t).1._state.tip = s._state.tip ∧
    (start host s t).1._state.height = s._state.height ∧
    (start host s t).1.clock = s.clock ∧
    beatClocks (start host s t).1.emitted = beatClocks s.emitted ∧
    (((start host s t).1.timers = s.timers ∧ (start host s t).1._beat = s._beat) ∨
     ((start host s t).1.timers = s.timers ++ [s.nextTimer] ∧
      (start host s t).1._beat = some s.nextTimer)) := by
  unfold start
  simp only []
  split
  · simp
  · rename_i wired hwired
    obtain ⟨b1, b2, b3, b4, b5, b6, b7, -⟩ := bootstrap_frame host wired t
    rw [b1, b2, b3, b4, b5, b6, b7]
    split at hwired
    · obtain ⟨c1, c2, c3, c4, c5, c6, c7⟩ := connect_ok host _ wired hwired
      rw [c1, c3, c4, c5, c6, c7]
      simp
    · simp only [Except.ok.injEq] at hwired
      subst hwired
      simp

theorem stop_rpc (s : Service) (h : s.settings.mode = "rpc") :
    (stop s).timers = clearInterval s.timers s._beat ∧ (stop s)._beat = none ∧
    (stop s).status = "stopped" ∧ (stop s)._state = s._state ∧ (stop s).emitted = s.emitted := by
  simp [stop, h]

theorem step_background_frame (m : Machine) (e : Event) (he : e.isBackground = true) :
    (m.step e).service.timers = m.service.timers ∧
    (m.step e).service._beat = m.service._beat ∧
    (m.step e).service.settings = m.service.settings := by
  cases e with
  | start host t => simp [Event.isBackground] at he
  | stop => simp [Event.isBackground] at he
  | fire handle now =>
    simp only [Machine.step]
    split <;> simp [tickBegin]
  | answer t =>
    simp only [Machine.step]
    split
    · simp
    · rename_i now rest _
      obtain ⟨h1, h2, h3, -⟩ := tickResume_frame m.service now t
      exact ⟨h1, h2, h3⟩

theorem run_background_frame (events : List Event) (m : Machine)
    (h : ∀ e ∈ events, e.isBackground = true) :
    (m.run events).service.timers = m.service.timers ∧
    (m.run events).service._beat = m.service._beat ∧
    (m.run events).service.settings = m.service.settings := by
  induction events generalizing m with
  | nil => simp [Machine.run]
  | cons e rest ih =>
    have he : e.isBackground = true := h e (List.mem_cons_self e rest)
    have hrest : ∀ x ∈ rest, x.isBackground = true :=
      fun x hx => h x (List.mem_cons_of_mem e hx)
    obtain ⟨s1, s2, s3⟩ := step_background_frame m e he
    obtain ⟨r1, r2, r3⟩ := ih (m.step e) hrest
    simp only [Machine.run, List.foldl_cons] at r1 r2 r3 ⊢
    exact ⟨r1.trans s1, r2.trans s2, r3.trans s3⟩

theorem step_disarmed (m : Machine) (e : Event) (he : e.isBackground = true)
    (hquiet : m.service.timers = []) :
    (m.step e).service.timers = [] ∧
    (beatClocks (m.step e).service.emitted).length + (m.step e).suspended.length
      ≤ (beatClocks m.service.emitted).length + m.suspended.length ∧
    (m.suspended = [] → m.step e = m) := by
  cases e with
  | start host t => simp [Event.isBackground] at he
  | stop => simp [Event.isBackground] at he
  | fire handle now => simp [Machine.step, hquiet]
  | answer t =>
    simp only [Machine.step]
    split
    · simp [hquiet]
    · rename_i now rest hsusp
      obtain ⟨h1, -, -, -, -, h6⟩ := tickResume_frame m.service now t
      refine ⟨by simpa [hquiet] using h1, ?_, ?_⟩
      · rcases h6 with h | h
        · simp [h, hsusp]
        · simp only [h, hsusp, List.length_append, List.length_cons, List.length_nil]
          omega
      · intro hnone
        rw [hnone] at hsusp
        cases hsusp

theorem run_disarmed (events : List Event) (m : Machine)
    (h : ∀ e ∈ events, e.isBackground = true) (hquiet : m.service.timers = []) :
    (beatClocks (m.run events).service.emitted).length + (m.run events).suspended.length
      ≤ (beatClocks m.service.emitted).length + m.suspended.length ∧
    (m.suspended = [] → m.run events = m) := by
  induction events generalizing m with
  | nil => simp [Machine.run]
  | cons e rest ih =>
    have he : e.isBackground = true := h e (List.mem_cons_self e rest)
    have hrest : ∀ x ∈ rest, x.isBackground = true :=
      fun x hx => h x (List.mem_cons_of_mem e hx)
    obtain ⟨s1, s2, s3⟩ := step_disarmed m e he hquiet
    obtain ⟨r1, r2⟩ := ih (m.step e) hrest s1
    simp only [Machine.run, List.foldl_cons] at r1 r2 ⊢
    refine ⟨le_trans r1 s2, fun hnone => ?_⟩
    have hm := s3 hnone
    rw [hm] at r2 ⊢
    exact r2 hnone

/-- C10 as the code has it: for every service in rpc mode that is started once
after construction and later stopped, after `stop` no heartbeat timer is armed,
the handle is released and the status is stopped, so no tick can begin any
more; the heartbeats that can still be emitted are those of the ticks that
were suspended when `stop` was called, at most one each, and there are none
when no tick was suspended. -/
theorem stop_disarms_heartbeat (host : Host) (settings : Settings) (t : Clock)
    (between : List Event) (hmode : settings.mode = "rpc")
    (hbetween : ∀ e ∈ between, e.isBackground = true) :
    (lifecycle host settings t between).service.timers = [] ∧
    (lifecycle host settings t between).service._beat = none ∧
    (lifecycle host settings t between).service.status = "stopped" ∧
    (∀ handle now,
      (lifecycle host settings t between).step (Event.fire handle now)
        = lifecycle host settings t between) ∧
    (∀ after, (∀ e ∈ after, e.isBackground = true) →
      (beatClocks ((lifecycle host settings t between).run after).service.emitted).length
        ≤ (beatClocks (lifecycle host settings t between).service.emitted).length
          + (lifecycle host settings t between).suspended.length) ∧
    ((lifecycle host settings t between).suspended = [] →
      ∀ after, (∀ e ∈ after, e.isBackground = true) →
        (lifecycle host settings t between).run after = lifecycle host settings t between) := by
  have hshape : ∀ m : Machine, m.service.settings.mode = "rpc" →
      ((m.service.timers = [] ∧ m.service._beat = none) ∨
       (m.service.timers = [0] ∧ m.service._beat = some 0)) →
      (m.step Event.stop).service.timers = [] ∧ (m.step Event.stop).service._beat = none ∧
      (m.step Event.stop).service.status = "stopped" := by
    intro m hm hcases
    obtain ⟨k1, k2, k3, -, -⟩ := stop_rpc m.service hm
    simp only [Machine.step]
    refine ⟨?_, k2, k3⟩
    rw [k1]
    rcases hcases with ⟨a, b⟩ | ⟨a, b⟩ <;> simp [a, b, clearInterval]
  obtain ⟨f1, -, -, -, -, f6⟩ := start_frame host (constructor settings) t
  obtain ⟨g1, g2, g3⟩ := run_background_frame between
    (Machine.step { service := constructor settings, suspended := [] } (Event.start host t))
    hbetween
  have hrun : lifecycle host settings t between
      = (Machine.run (Machine.step { service := constructor settings, suspended := [] }
          (Event.start host t)) between).step Event.stop := by
    simp [lifecycle, Machine.run, List.foldl_append]
  have hstopped := hshape
    (Machine.run (Machine.step { service := constructor settings, suspended := [] }
      (Event.start host t)) between)
    (by rw [g3]; simp only [Machine.step]; rw [f1]; exact hmode)
    (by
      rw [g1, g2]
      simp only [Machine.step]
      rcases f6 with ⟨a, b⟩ | ⟨a, b⟩
      · left; exact ⟨by rw [a]; rfl, by rw [b]; rfl⟩
      · right; exact ⟨by rw [a]; rfl, by rw [b]; rfl⟩)
  rw [← hrun] at hstopped
  obtain ⟨q1, q2, q3⟩ := hstopped
  refine ⟨q1, q2, q3, ?_, ?_, ?_⟩
  · intro handle now
    simp [Machine.step, q1]
  · intro after hafter
    exact le_trans (Nat.le_add_right _ _) (run_disarmed after _ hafter q1).1
  · intro hnone after hafter
    exact (run_disarmed after _ hafter q1).2 hnone

theorem stop_disarms_heartbeat_witness :
    Settings.defaults.mode = "rpc" ∧
    (lifecycle sampleHost Settings.defaults ⟨0, 5⟩
      [Event.fire 0 "t1", Event.answer ⟨10, 15⟩]).service.timers = [] :=
  ⟨rfl,
   (stop_disarms_heartbeat sampleHost Settings.defaults ⟨0, 5⟩
      [Event.fire 0 "t1", Event.answer ⟨10, 15⟩] rfl
      (by intro e he; simp at he; rcases he with h | h <;> subst h <;> rfl)).1⟩

/-- C10 refuted as stated: a tick that began before `stop` and was suspended
at its height request emits its heartbeat when the answer arrives, after
`stop` has returned with the timer cancelled and the status stopped. -/
theorem beat_after_stop :
    (lifecycle sampleHost Settings.defaults ⟨0, 5⟩ [Event.fire 0 "t1"]).service.timers = [] ∧
    (lifecycle sampleHost Settings.defaults ⟨0, 5⟩ [Event.fire 0 "t1"]).service.status
      = "stopped" ∧
    beatClocks (lifecycle sampleHost Settings.defaults ⟨0, 5⟩
      [Event.fire 0 "t1"]).service.emitted = [] ∧
    beatClocks ((lifecycle sampleHost Settings.defaults ⟨0, 5⟩
      [Event.fire 0 "t1"]).run [Event.answer ⟨10, 15⟩]).service.emitted = [1] := by
  refine ⟨?_, ?_, ?_, ?_⟩ <;> rfl

/-! ## The bootstrap sync -/

/-- C3, the code evaluated: for every remote node that answers
`eth_blockNumber` with a height and `eth_getBlockByNumber` at that height with
a block, `start` on a new service in rpc mode succeeds, and the tip and the
height are still null afterwards, also after `stop`: `_syncWithRPC` drops
both values it fetched. -/
theorem start_leaves_tip_null (host : Host) (settings : Settings) (t : Clock)
    (wired : Service) (rpc : Transport) (err1 response1 h err2 response2 b : JSValue)
    (hmode : settings.mode = "rpc") (hhttp : settings.http = false)
    (hconnect : connect host { constructor settings with status := "starting" }
      = Except.ok wired)
    (hrpc : wired.rpc = some rpc)
    (hheight : rpc "eth_blockNumber" [] = Dispatch.answers err1 response1)
    (herr1 : err1.truthy = false) (hh : response1.get "result" = Except.ok h)
    (hblock : rpc "eth_getBlockByNumber" [h] = Dispatch.answers err2 response2)
    (herr2 : err2.truthy = false) (hb : response2.get "result" = Except.ok b) :
    (start host (constructor settings) t).2 = Settlement.resolved () ∧
    tip (start host (constructor settings) t).1 = none ∧
    height (start host (constructor settings) t).1 = none ∧
    tip (stop (start host (constructor settings) t).1) = none ∧
    height (stop (start host (constructor settings) t).1) = none := by
  obtain ⟨-, f2, f3, -, -, -⟩ := start_frame host (constructor settings) t
  have hstop : ∀ s : Service, (stop s)._state = s._state := by
    intro s
    unfold stop
    simp only []
    split <;> rfl
  refine ⟨?_, f2, f3, ?_, ?_⟩
  · obtain ⟨c1, -, -, -, -, -, -⟩ := connect_ok host _ wired hconnect
    have hhttp2 : wired.settings.http = false := by rw [c1]; exact hhttp
    have hsync : _syncWithRPC wired = (wired, Settlement.resolved ()) := by
      simp [_syncWithRPC, _getChainHeight, _getBlockByNumber, _makeRPCRequest, hrpc, hheight,
        herr1, hh, hblock, herr2, hb]
    have hmode2 : (constructor settings).settings.mode = "rpc" := hmode
    simp [start, hmode2, hconnect, bootstrap, hhttp2, hsync]
  · simp only [tip, hstop]; exact f2
  · simp only [height, hstop]; exact f3

theorem start_leaves_tip_null_witness :
    Settings.defaults.mode = "rpc" ∧
    sampleNode "eth_blockNumber" []
      = Dispatch.answers JSValue.null (JSValue.object [("result", JSValue.string "0x10")]) ∧
    sampleNode "eth_getBlockByNumber" [JSValue.string "0x10"]
      = Dispatch.answers JSValue.null
          (JSValue.object [("result", JSValue.object [("hash", JSValue.string "0xabc")])]) ∧
    (start sampleHost (constructor Settings.defaults) ⟨0, 5⟩).2 = Settlement.resolved () ∧
    tip (stop (start sampleHost (constructor Settings.defaults) ⟨0, 5⟩).1) = none :=
  ⟨rfl, rfl, rfl,
   (start_leaves_tip_null sampleHost Settings.defaults ⟨0, 5⟩
      { constructor Settings.defaults with
        status := "starting", rpc := some sampleNode, _beat := some 0, timers := [0],
        nextTimer := 1 }
      sampleNode JSValue.null (JSValue.object [("result", JSValue.string "0x10")])
      (JSValue.string "0x10") JSValue.null
      (JSValue.object [("result", JSValue.object [("hash", JSValue.string "0xabc")])])
      (JSValue.object [("hash", JSValue.string "0xabc")])
      rfl rfl rfl rfl rfl rfl rfl rfl rfl rfl).1,
   (start_leaves_tip_null sampleHost Settings.defaults ⟨0, 5⟩
      { constructor Settings.defaults with
        status := "starting", rpc := some sampleNode, _beat := some 0, timers := [0],
        nextTimer := 1 }
      sampleNode JSValue.null (JSValue.object [("result", JSValue.string "0x10")])
      (JSValue.string "0x10") JSValue.null
      (JSValue.object [("result", JSValue.object [("hash", JSValue.string "0xabc")])])
      (JSValue.object [("hash", JSValue.string "0xabc")])
      rfl rfl rfl rfl rfl rfl rfl rfl rfl rfl).2.2.2.1⟩

/-! ## The passthrough request -/

end FabricEthereum
